import Mathlib

/-!
Verification of the chainsoup pipeline library (pipeline.py, args.py,
exceptions.py) against its specification.

The embedding follows the Python source:
* Python values that flow through the argument-resolution machinery are
  modelled by the universe `PyVal` (None, booleans, strings, the `Default`
  sentinel, the `lambda _: True` default matcher, and attribute dicts);
  strainable criteria such as compiled patterns or predicates are opaque to
  the core, so `PyVal.str` stands in for any opaque matcher value.
* Python `raise` of build-time faults (ValueError from `resolve_value`,
  AttributeError from the name/string validation) is modelled by
  `Except BuildErr`; the spec names both faults InvalidArgument.
* Run-time pipeline failures returned as values (the `Error` hierarchy of
  exceptions.py) are modelled by `Err`.
* The bs4 collaborator (`Tag.find`) is an abstract parameter
  `find : Node → FindTag → Option (FindResult Node)`.
-/

namespace Chainsoup

/-- Enumeration `SpecalArg` from args.py: the five fill strategies. -/
inductive SpecalArg : Type where
  | EXPANDLAST
  | FILLDEFAULT
  | FILLNONE
  | FILLFALSE
  | FILLTRUE
deriving DecidableEq, Repr

/-- Universe of Python values handled by the argument machinery.
`defaultMark` is the `DEFAULT = Default()` sentinel of args.py;
`matchAllFn` is the `lambda _: True` default matcher used by
`find_nested_tag`; `dict` is a Python dict of keyword/attribute values. -/
inductive PyVal : Type where
  | none : PyVal
  | bool : Bool → PyVal
  | str : String → PyVal
  | defaultMark : PyVal
  | matchAllFn : PyVal
  | dict : List (String × PyVal) → PyVal

/-- Test `value is None` (Python identity test against None). -/
def PyVal.isNone : PyVal → Bool
  | PyVal.none => true
  | _ => false

/-- Test `isinstance(value, Default)` from args.py line 85. -/
def PyVal.isDefaultMark : PyVal → Bool
  | PyVal.defaultMark => true
  | _ => false

/-- Build-time faults raised (not returned) by the source:
`valueError` models the ValueError raised by `resolve_value` on
EXPANDLAST over an empty list (and by `zip(strict=True)`), and
`attributeError` models the AttributeError raised when `name` is None
while `string` is not.  The spec calls both InvalidArgument. -/
inductive BuildErr : Type where
  | valueError
  | attributeError
deriving DecidableEq, Repr

/-- Substitution applied elementwise by args.py line 85:
`default if isinstance(value, Default) else value`. -/
def substDefault (default : PyVal) (value : PyVal) : PyVal :=
  if value.isDefaultMark then default else value

/-- Shallow embedding of `resolve_value` (args.py lines 63-101).
The Python function first replaces every `Default` sentinel by `default`,
returns the list unchanged when `max_n < 0` or the lengths already agree,
truncates when too long, and otherwise pads on the right according to
`specal`; the final `return resolved_values + [None]*left` is the
fall-through branch that FILLNONE (or any unrecognized strategy) reaches.
Raising ValueError is modelled as `Except.error BuildErr.valueError`. -/
def resolve_value (values : List PyVal) (specal : SpecalArg) (max_n : Int)
    (default : PyVal) : Except BuildErr (List PyVal) :=
  let resolved_values : List PyVal := values.map (substDefault default)
  if max_n < 0 then Except.ok resolved_values
  else if (resolved_values.length : Int) = max_n then Except.ok resolved_values
  else if (resolved_values.length : Int) > max_n then
    Except.ok (resolved_values.take max_n.toNat)
  else
    let left : Nat := (max_n - (resolved_values.length : Int)).toNat
    match specal with
    | SpecalArg.EXPANDLAST =>
        match resolved_values.getLast? with
        | Option.none => Except.error BuildErr.valueError
        | Option.some last =>
            Except.ok (resolved_values ++ List.replicate left last)
    | SpecalArg.FILLDEFAULT =>
        Except.ok (resolved_values ++ List.replicate left default)
    | SpecalArg.FILLTRUE =>
        Except.ok (resolved_values ++ List.replicate left (PyVal.bool true))
    | SpecalArg.FILLFALSE =>
        Except.ok (resolved_values ++ List.replicate left (PyVal.bool false))
    | SpecalArg.FILLNONE =>
        Except.ok (resolved_values ++ List.replicate left PyVal.none)

/-- Padding element dictated by a fill strategy, as a function of the
already-substituted value list `v` and the default `d` (specification-side
characterization used to state properties of `resolve_value`; for
EXPANDLAST it is the last element of `v`, only meaningful when `v` is
non-empty). -/
def padValue (specal : SpecalArg) (v : List PyVal) (d : PyVal) : PyVal :=
  match specal with
  | SpecalArg.EXPANDLAST => v.getLastD d
  | SpecalArg.FILLDEFAULT => d
  | SpecalArg.FILLTRUE => PyVal.bool true
  | SpecalArg.FILLFALSE => PyVal.bool false
  | SpecalArg.FILLNONE => PyVal.none

/-- Data of a `NestedArgBase` object (args.py lines 38-62): an ordered
value list together with the attached fill strategy. -/
structure NestedArg : Type where
  values : List PyVal
  specal : SpecalArg

/-!
Heap model for the copy-on-write behaviour of `BaseNestedStrainableArg.add`
(args.py lines 104-122).  A nested-argument object holds a reference
(`valuesRef`) to a mutable backing list stored in a `Store`; `copy`
allocates a fresh reference holding a copy of the list (`self.values.copy()`),
and `add` mutates only the fresh copy, either appending a value or replacing
the strategy.  The value type `V` is kept abstract (Strainable-or-None in
the source).
-/

/-- Mutable heap of backing lists: `next` is the next fresh reference,
`mem` maps references to list contents. -/
structure Store (V : Type) : Type where
  next : Nat
  mem : Nat → List V

/-- Read the backing list behind reference `r`. -/
def Store.lookup {V : Type} (s : Store V) (r : Nat) : List V :=
  s.mem r

/-- Overwrite the backing list behind reference `r`. -/
def Store.update {V : Type} (s : Store V) (r : Nat) (xs : List V) : Store V :=
  Store.mk s.next (fun r2 => if r2 = r then xs else s.mem r2)

/-- Allocate a fresh reference holding `xs`. -/
def Store.alloc {V : Type} (s : Store V) (xs : List V) : Store V × Nat :=
  (Store.mk (s.next + 1) (fun r2 => if r2 = s.next then xs else s.mem r2), s.next)

/-- A `BaseNestedStrainableArg` object: a reference to its backing value
list plus its (immediately held) strategy field. -/
structure NAObj : Type where
  valuesRef : Nat
  specal : SpecalArg

/-- Embedding of `copy` (args.py lines 105-109): the copy gets a fresh
backing list with the same contents (`self.values.copy()`) and the same
strategy. -/
def NAObj.copyObj {V : Type} (s : Store V) (a : NAObj) : Store V × NAObj :=
  match s.alloc (s.lookup a.valuesRef) with
  | (s2, r) => (s2, NAObj.mk r a.specal)

/-- Embedding of `add` (args.py lines 114-120): `result = self.copy()`;
a `SpecalArg` argument replaces the copy's strategy, any other value is
appended to the copy's backing list (`result.values.append(value)`). -/
def NAObj.add {V : Type} (s : Store V) (a : NAObj) (x : V ⊕ SpecalArg) :
    Store V × NAObj :=
  match NAObj.copyObj s a with
  | (s1, result) =>
    match x with
    | Sum.inr sp => (s1, NAObj.mk result.valuesRef sp)
    | Sum.inl v =>
        (s1.update result.valuesRef (s1.lookup result.valuesRef ++ [v]), result)

/-!
Pipeline model (pipeline.py).
-/

/-- Configuration of a `FindTag` step (pipeline.py lines 37-81): the
arguments forwarded to the collaborator's `find`. -/
structure FindTag : Type where
  name : PyVal
  attrs : PyVal
  recursive : PyVal
  string : PyVal
  kwargs : List (String × PyVal)

/-- Embedding of `FindTag.__init__`: stores the arguments, coercing a
`None` recursive flag to `True` (`recursive if recursive is not None
else True`, pipeline.py line 50). -/
def FindTag.make (name attrs recursive string : PyVal)
    (kwargs : List (String × PyVal)) : FindTag :=
  FindTag.mk name attrs
    (if recursive.isNone then PyVal.bool true else recursive) string kwargs

/-- Configuration of a `FindAllTags` step (pipeline.py lines 82-129):
`__init__` stores every argument unchanged. -/
structure FindAllTags : Type where
  name : PyVal
  attrs : PyVal
  recursive : PyVal
  string : PyVal
  limit : PyVal
  kwargs : List (String × PyVal)

/-- A `PipelineElement` of a single-result pipeline: either a `FindTag`
step, or a whole `Pipeline` appended as one element (which is what
`Pipeline.join` does, pipeline.py lines 226-228, since `Pipeline` is
itself a `PipelineElement` whose `_exec` is `run`). -/
inductive Step : Type where
  | findTag : FindTag → Step
  | nested : List Step → Step

/-- A single-result `Pipeline` (pipeline.py line 150): an ordered list of
elements. -/
structure Pipeline : Type where
  _runs : List Step

/-- Result of the collaborator's `find`: a proper `Tag` node, or a
non-`Tag` page element (e.g. a `NavigableString`). -/
inductive FindResult (Node : Type) : Type where
  | tag : Node → FindResult Node
  | nonTag : FindResult Node

/-- Run-time pipeline failures (exceptions.py), returned as values:
`ElementNotFound`, `UnknownElement`, `AssertError` and `IndexOutError`
(the message strings are irrelevant to the claims and omitted; the
`IndexOutError` keeps its `index` payload). -/
inductive Err : Type where
  | elementNotFound : Err
  | unknownElement : Err
  | assertError : Err
  | indexOutError : Int → Err
deriving DecidableEq, Repr

mutual

/-- Embedding of `PipelineElement._exec` for the element kinds a
single-result pipeline holds.  `FindTag._exec` (pipeline.py lines 56-72)
queries the collaborator `find` and fails with `ElementNotFound` when
nothing matched or `UnknownElement` when the match is not a `Tag`;
a nested `Pipeline` element executes by running its own step list
(`Pipeline._exec` is `run`, line 173-174). -/
def Step.exec {Node : Type} (find : Node → FindTag → Option (FindResult Node)) :
    Step → Node → Except Err Node
  | Step.findTag cfg, v =>
      match find v cfg with
      | Option.none => Except.error Err.elementNotFound
      | Option.some FindResult.nonTag => Except.error Err.unknownElement
      | Option.some (FindResult.tag n) => Except.ok n
  | Step.nested runs, v => runsAux find runs v

/-- Embedding of the loop body of `Pipeline.run` (pipeline.py lines
185-190): fold `_exec` over the step list, threading the current node and
short-circuiting on the first `Error`. -/
def runsAux {Node : Type} (find : Node → FindTag → Option (FindResult Node)) :
    List Step → Node → Except Err Node
  | [], v => Except.ok v
  | r :: rest, v =>
      match Step.exec find r v with
      | Except.error e => Except.error e
      | Except.ok v2 => runsAux find rest v2

end

/-- Embedding of `Pipeline.run` (pipeline.py lines 175-190). -/
def Pipeline.run {Node : Type} (find : Node → FindTag → Option (FindResult Node))
    (p : Pipeline) (value : Node) : Except Err Node :=
  runsAux find p._runs value

/-- Embedding of `Pipeline.run_and_raise_for_error` (pipeline.py lines
192-208): run, then re-raise an `Error` result (raising is modelled as
`Except.error`) and return the node otherwise. -/
def Pipeline.run_and_raise_for_error {Node : Type}
    (find : Node → FindTag → Option (FindResult Node)) (p : Pipeline)
    (soup : Node) : Except Err Node :=
  match Pipeline.run find p soup with
  | Except.error e => Except.error e
  | Except.ok result => Except.ok result

/-- Embedding of the `Pipeline`-argument branch of `Pipeline.join`
(pipeline.py lines 226-228): `pipeline = self.copy();
pipeline._runs.append(run.copy())` — the other pipeline is appended as a
single nested element, not spliced step by step. -/
def Pipeline.join (p other : Pipeline) : Pipeline :=
  Pipeline.mk (p._runs ++ [Step.nested other._runs])

/-- Embedding of `Pipeline.find_tag` (pipeline.py lines 247-277): copy,
validate (`name is None and string is not None` raises AttributeError),
then append a `FindTag` built by `FindTag.__init__`. -/
def Pipeline.find_tag (p : Pipeline) (name attrs recursive string : PyVal)
    (kwargs : List (String × PyVal)) : Except BuildErr Pipeline :=
  if name.isNone && !string.isNone then Except.error BuildErr.attributeError
  else Except.ok (Pipeline.mk (p._runs
    ++ [Step.findTag (FindTag.make name attrs recursive string kwargs)]))

/-- A `PipelineSequenceElement` (pipeline.py lines 442-514): filters,
maps and assertions over a sequence of nodes.  Caller-supplied functions
are modelled by their truthiness as predicates. -/
inductive PipelineSequenceElement (Node : Type) : Type where
  | filter : (Node → Bool) → PipelineSequenceElement Node
  | enumerateFilter : (Nat → Node → Bool) → PipelineSequenceElement Node
  | map : (Node → Node) → PipelineSequenceElement Node
  | enumerateMap : (Nat → Node → Node) → PipelineSequenceElement Node
  | assertAll : (Node → Bool) → PipelineSequenceElement Node
  | assertEnumerateAll : (Nat → Node → Bool) → PipelineSequenceElement Node
  | assertAny : (Node → Bool) → PipelineSequenceElement Node
  | assertEnumerateAny : (Nat → Node → Bool) → PipelineSequenceElement Node

/-- Configuration of a `ByIndex` step (pipeline.py lines 515-526). -/
structure ByIndex : Type where
  index : Int

/-- A `PipelineSequence` (pipeline.py lines 527-542): prefix pipeline,
the node-to-sequence solo step, the sequence steps, and the optional
terminal sequence-to-node step. -/
structure PipelineSequence (Node : Type) : Type where
  pipeline : Pipeline
  _solo_run : FindAllTags
  _runs : List (PipelineSequenceElement Node)
  _final_run : Option ByIndex

/-- Embedding of `Pipeline.find_all_tags` (pipeline.py lines 406-440):
validate (`name is None and string is not None` raises AttributeError),
then build a `PipelineSequence` from a copy of the pipeline and a
`FindAllTags` solo step, with no sequence steps and no terminal step. -/
def Pipeline.find_all_tags (Node : Type) (p : Pipeline)
    (name attrs recursive string limit : PyVal)
    (kwargs : List (String × PyVal)) : Except BuildErr (PipelineSequence Node) :=
  if name.isNone && !string.isNone then Except.error BuildErr.attributeError
  else Except.ok (PipelineSequence.mk p
    (FindAllTags.mk name attrs recursive string limit kwargs) [] Option.none)

/-- Embedding of `AssertAll._exec` (pipeline.py lines 479-482): fail with
`AssertError` unless the predicate holds of every element. -/
def AssertAll.exec {Node : Type} (fn : Node → Bool) (value : List Node) :
    Except Err (List Node) :=
  if !value.all fn then Except.error Err.assertError else Except.ok value

/-- Embedding of `AssertEnumerateAll._exec` (pipeline.py lines 489-492). -/
def AssertEnumerateAll.exec {Node : Type} (fn : Nat → Node → Bool)
    (value : List Node) : Except Err (List Node) :=
  if !(value.enum.all (fun p => fn p.fst p.snd)) then
    Except.error Err.assertError
  else Except.ok value

/-- Embedding of `AssertAny._exec` (pipeline.py lines 499-502): fail with
`AssertError` unless the predicate holds of some element. -/
def AssertAny.exec {Node : Type} (fn : Node → Bool) (value : List Node) :
    Except Err (List Node) :=
  if !value.any fn then Except.error Err.assertError else Except.ok value

/-- Embedding of `AssertEnumerateAny._exec` (pipeline.py lines 509-512).
The source tests `all(self.fn(idx, v) for idx, v in enumerate(value))`
here — `all`, not `any` — and this embedding mirrors that line exactly. -/
def AssertEnumerateAny.exec {Node : Type} (fn : Nat → Node → Bool)
    (value : List Node) : Except Err (List Node) :=
  if !(value.enum.all (fun p => fn p.fst p.snd)) then
    Except.error Err.assertError
  else Except.ok value

/-- Index arithmetic of the Python subscript `value[i]` on a list of
length `L`: non-negative indices count from the front, negative indices
from the end. -/
def pyIndexNat (i : Int) (L : Nat) : Nat :=
  if 0 ≤ i then i.toNat else L - (-i).toNat

/-- Embedding of `ByIndex._exec` (pipeline.py lines 519-524): bounds
checks for non-negative and negative indices, then the Python subscript
`value[self.index]`. -/
def ByIndex.exec {Node : Type} (b : ByIndex) (value : List Node) :
    Except Err Node :=
  if _h1 : 0 ≤ b.index ∧ (value.length : Int) ≤ b.index then
    Except.error (Err.indexOutError b.index)
  else if _h2 : b.index < 0 ∧ (value.length : Int) < -b.index then
    Except.error (Err.indexOutError b.index)
  else
    Except.ok (value.get ⟨pyIndexNat b.index value.length, by
      unfold pyIndexNat; split <;> omega⟩)

/-- The `attrs` parameter of `find_nested_tag` (pipeline.py line 281):
either one `NestedArg` for the whole attrs value per level (Case A,
`not isinstance(attrs, dict)`), or a Python dict of per-attribute-name
`NestedArg`s (Case B). -/
inductive AttrsParam : Type where
  | single : NestedArg → AttrsParam
  | dict : List (String × NestedArg) → AttrsParam

/-- Python `max((len(value) for value in d.values()), default=0)` over a
dict of `NestedArg`s (pipeline.py lines 312 and 327). -/
def maxLenNested (l : List (String × NestedArg)) : Nat :=
  l.foldr (fun kv acc => max kv.snd.values.length acc) 0

/-- Embedding of the dict comprehension resolving each `NestedArg` of a
dict to the common depth (pipeline.py lines 331-334 and 345-348):
`{k: resolve_value(v.values, specal=v.specal, max_n=deepest,
default=lambda _: True) for k, v in d.items()}`; the first raised
`ValueError` propagates. -/
def resolveKwargsList (kwargs : List (String × NestedArg)) (deepest : Nat) :
    Except BuildErr (List (String × List PyVal)) :=
  match kwargs with
  | [] => Except.ok []
  | (k, v) :: t =>
      match resolve_value v.values v.specal (deepest : Int) PyVal.matchAllFn with
      | Except.error e => Except.error e
      | Except.ok r =>
          match resolveKwargsList t deepest with
          | Except.error e => Except.error e
          | Except.ok rest => Except.ok ((k, r) :: rest)

/-- Transposition of a dict of per-level lists into one dict per level
(pipeline.py lines 338-341 and 350-353):
`[{k: values[i] for k, values in resolved.items()} for i in range(deepest)]`.
Each resolved list has length exactly `deepest`, so the `getD` fallback
is never reached. -/
def transposeLevels (resolved : List (String × List PyVal)) (deepest : Nat) :
    List (List (String × PyVal)) :=
  (List.range deepest).map (fun i =>
    resolved.map (fun kv => (kv.fst, kv.snd.getD i PyVal.none)))

/-- Embedding of the `zip(..., strict=True)` loop of `find_nested_tag`
(pipeline.py lines 363-381): for each level validate
(`name is None and string is not None` raises AttributeError) and build a
`FindTag` step via `FindTag.__init__`; a length mismatch between the
zipped lists would raise `ValueError` (unreachable since every list is
resolved to the same depth). -/
def buildFindSteps : List PyVal → List PyVal → List PyVal → List PyVal →
    List (List (String × PyVal)) → Except BuildErr (List Step)
  | [], [], [], [], [] => Except.ok []
  | nm :: ns, at1 :: ats, rc :: rcs, st :: sts, kw :: kws =>
      if nm.isNone && !st.isNone then Except.error BuildErr.attributeError
      else
        match buildFindSteps ns ats rcs sts kws with
        | Except.error e => Except.error e
        | Except.ok rest =>
            Except.ok (Step.findTag (FindTag.make nm at1 rc st kw) :: rest)
  | _, _, _, _, _ => Except.error BuildErr.valueError

/-- Common tail of `find_nested_tag` after `new_attrs` is computed
(pipeline.py lines 343-384): resolve and transpose the kwargs, resolve
`name` (default None), `recursive` (default True) and `string` (default
None) to the common depth, then build one `FindTag` per level and append
them to the copied pipeline. -/
def findNestedTail (p : Pipeline) (deepest : Nat) (new_attrs : List PyVal)
    (name recursive string : NestedArg)
    (kwargs : List (String × NestedArg)) : Except BuildErr Pipeline :=
  match resolveKwargsList kwargs deepest with
  | Except.error e => Except.error e
  | Except.ok resolved_kwargs =>
    match resolve_value name.values name.specal (deepest : Int) PyVal.none with
    | Except.error e => Except.error e
    | Except.ok new_name =>
      match resolve_value recursive.values recursive.specal (deepest : Int)
          (PyVal.bool true) with
      | Except.error e => Except.error e
      | Except.ok new_recursive =>
        match resolve_value string.values string.specal (deepest : Int)
            PyVal.none with
        | Except.error e => Except.error e
        | Except.ok new_string =>
          match buildFindSteps new_name new_attrs new_recursive new_string
              (transposeLevels resolved_kwargs deepest) with
          | Except.error e => Except.error e
          | Except.ok steps => Except.ok (Pipeline.mk (p._runs ++ steps))

/-- Embedding of `Pipeline.find_nested_tag` (pipeline.py lines 278-384).
The common depth is the maximum length over `name`, `recursive`,
`string`, every kwargs `NestedArg`, and the attrs argument (its own
length in Case A; the maximum over its entries in Case B); `attrs` is
resolved directly (Case A) or resolved entrywise and transposed into one
dict per level (Case B); the rest is `findNestedTail`. -/
def Pipeline.find_nested_tag (p : Pipeline) (name : NestedArg)
    (attrs : AttrsParam) (recursive : NestedArg) (string : NestedArg)
    (kwargs : List (String × NestedArg)) : Except BuildErr Pipeline :=
  let _deepest : Nat :=
    max name.values.length (max recursive.values.length string.values.length)
  let _kwargs_value_max_length : Nat := maxLenNested kwargs
  match attrs with
  | AttrsParam.single a =>
      let deepest : Nat :=
        max _deepest (max _kwargs_value_max_length a.values.length)
      match resolve_value a.values a.specal (deepest : Int) PyVal.matchAllFn with
      | Except.error e => Except.error e
      | Except.ok new_attrs =>
          findNestedTail p deepest new_attrs name recursive string kwargs
  | AttrsParam.dict m =>
      let deepest : Nat :=
        max _deepest (max _kwargs_value_max_length (maxLenNested m))
      match resolveKwargsList m deepest with
      | Except.error e => Except.error e
      | Except.ok resolved_attrs =>
          let new_attrs : List PyVal :=
            (transposeLevels resolved_attrs deepest).map PyVal.dict
          findNestedTail p deepest new_attrs name recursive string kwargs

/-!
Helper lemmas (shared by several claim theorems).
-/

theorem map_substDefault_eq_self (d : PyVal) (values : List PyVal)
    (h : ∀ v ∈ values, v.isDefaultMark = false) :
    values.map (substDefault d) = values := by
  induction values with
  | nil => rfl
  | cons a t ih =>
      have ha := h a (List.mem_cons_self a t)
      have ht : ∀ v ∈ t, v.isDefaultMark = false :=
        fun v hv => h v (List.mem_cons_of_mem a hv)
      simp [substDefault, ha, ih ht]

theorem getLast?_eq_getLastD_of_ne_nil {α : Type} (l : List α) (d : α)
    (h : l ≠ []) : l.getLast? = some (l.getLastD d) := by
  rw [List.getLastD_eq_getLast?]
  cases hx : l.getLast? with
  | none => exact absurd (List.getLast?_eq_none_iff.mp hx) h
  | some x => rfl

theorem resolve_value_of_neg (values : List PyVal) (s : SpecalArg) (n : Int)
    (d : PyVal) (h : n < 0) :
    resolve_value values s n d = Except.ok (values.map (substDefault d)) := by
  simp [resolve_value, h]

theorem resolve_value_of_le (values : List PyVal) (s : SpecalArg) (n : Int)
    (d : PyVal) (h0 : 0 ≤ n) (hle : n ≤ (values.length : Int)) :
    resolve_value values s n d
      = Except.ok ((values.map (substDefault d)).take n.toNat) := by
  have hnn : ¬ n < 0 := by omega
  rcases eq_or_lt_of_le hle with hEq | hLt
  · have hL : ((values.length : Nat) : Int) = n := hEq.symm
    have hTake : n.toNat = (values.map (substDefault d)).length := by
      simp only [List.length_map]
      omega
    rw [hTake, List.take_length]
    simp [resolve_value, hnn, hL]
  · have hne : ¬ (((values.length : Nat) : Int) = n) := by omega
    simp [resolve_value, hnn, hne, hLt]

theorem resolve_value_of_lt (values : List PyVal) (s : SpecalArg) (n : Int)
    (d : PyVal) (hlt : (values.length : Int) < n)
    (hok : values ≠ [] ∨ s ≠ SpecalArg.EXPANDLAST) :
    resolve_value values s n d
      = Except.ok ((values.map (substDefault d))
          ++ List.replicate (n.toNat - values.length)
              (padValue s (values.map (substDefault d)) d)) := by
  have hnn : ¬ n < 0 := by omega
  have hne : ¬ (((values.length : Nat) : Int) = n) := by omega
  have hnlt : ¬ (n < ((values.length : Nat) : Int)) := by omega
  cases s with
  | EXPANDLAST =>
      have hvne : values ≠ [] := by
        cases hok with
        | inl h => exact h
        | inr h => exact absurd rfl h
      obtain ⟨last, hlast⟩ : ∃ x, values.getLast? = some x := by
        cases hx : values.getLast? with
        | none => exact absurd (List.getLast?_eq_none_iff.mp hx) hvne
        | some x => exact ⟨x, rfl⟩
      have hpad : padValue SpecalArg.EXPANDLAST (values.map (substDefault d)) d
          = substDefault d last := by
        simp [padValue, List.getLastD_eq_getLast?, List.getLast?_map, hlast]
      rw [hpad]
      simp [resolve_value, hnn, hne, hnlt, hlast]
  | FILLDEFAULT => simp [resolve_value, hnn, hne, hnlt, padValue]
  | FILLNONE => simp [resolve_value, hnn, hne, hnlt, padValue]
  | FILLFALSE => simp [resolve_value, hnn, hne, hnlt, padValue]
  | FILLTRUE => simp [resolve_value, hnn, hne, hnlt, padValue]

/-!
Claim theorems.
-/

/-- C7: for every target depth `n > 0` and every default, resolving an
empty value sequence under the REPEAT_LAST (EXPANDLAST) strategy fails
with the InvalidArgument fault (`ValueError` in args.py lines 90-94),
raised at resolution time (modelled as `Except.error`, distinct from the
run-time `Err` values a pipeline returns). -/
theorem expandlast_empty_error (n : Int) (d : PyVal) (h : 0 < n) :
    resolve_value [] SpecalArg.EXPANDLAST n d
      = Except.error BuildErr.valueError := by
  have h1 : ¬ n < 0 := by omega
  have h2 : ¬ ((0 : Int) = n) := by omega
  have h3 : ¬ ((0 : Int) > n) := by omega
  simp [resolve_value, h1, h2, h3]

/-- Witness for C7 at `n = 1`. -/
theorem expandlast_empty_error_witness :
    resolve_value [] SpecalArg.EXPANDLAST 1 PyVal.none
      = Except.error BuildErr.valueError :=
  expandlast_empty_error 1 PyVal.none (by decide)

/-- C2 (counterexample): the claim says that with a negative target depth
`resolve` returns the value sequence unchanged, but `resolve_value` first
replaces every `Default` sentinel by the supplied default (args.py line
85), so the sequence `[DEFAULT]` is not returned unchanged. -/
theorem resolve_value_identity_ce :
    resolve_value [PyVal.defaultMark] SpecalArg.FILLNONE (-1) (PyVal.str "d")
      ≠ Except.ok [PyVal.defaultMark] := by
  intro h
  have hc : resolve_value [PyVal.defaultMark] SpecalArg.FILLNONE (-1)
      (PyVal.str "d") = Except.ok [PyVal.str "d"] := rfl
  rw [hc] at h
  simp at h

/-- C2 (amended): `resolve_value` first substitutes the default `d` for
each `Default` sentinel of `v`, yielding `v'`; then with `n < 0` it
returns `v'` unchanged (so `v` itself whenever `v` holds no sentinel);
with `0 ≤ n ≤ len(v)` it returns exactly the first `n` elements of `v'`;
and with `len(v) < n` (except REPEAT_LAST on an empty sequence, which
fails — see C7) it returns a sequence of length exactly `n` that extends
`v'` with the strategy's padding element (REPEAT_LAST: last element of
`v'`; FILL_DEFAULT: `d`; FILL_TRUE/FILL_FALSE: the booleans; FILL_NONE,
the fall-through branch: the none marker). -/
theorem resolve_value_amended_spec (values : List PyVal) (s : SpecalArg)
    (n : Int) (d : PyVal) :
    (n < 0 → resolve_value values s n d
        = Except.ok (values.map (substDefault d)))
  ∧ (0 ≤ n → n ≤ (values.length : Int) →
      resolve_value values s n d
          = Except.ok ((values.map (substDefault d)).take n.toNat)
        ∧ ((values.map (substDefault d)).take n.toNat).length = n.toNat)
  ∧ ((values.length : Int) < n → (values ≠ [] ∨ s ≠ SpecalArg.EXPANDLAST) →
      resolve_value values s n d
          = Except.ok ((values.map (substDefault d))
              ++ List.replicate (n.toNat - values.length)
                  (padValue s (values.map (substDefault d)) d))
        ∧ ((values.map (substDefault d))
              ++ List.replicate (n.toNat - values.length)
                  (padValue s (values.map (substDefault d)) d)).length
            = n.toNat) := by
  refine ⟨fun h => resolve_value_of_neg values s n d h, fun h0 hle => ?_,
    fun hlt hok => ?_⟩
  · refine ⟨resolve_value_of_le values s n d h0 hle, ?_⟩
    simp [List.length_take]
    omega
  · refine ⟨resolve_value_of_lt values s n d hlt hok, ?_⟩
    simp [List.length_append, List.length_replicate]
    omega

/-- Witness for C2's amended theorem: padding `["a"]` to depth 3 under
FILL_TRUE. -/
theorem resolve_value_amended_spec_witness :
    resolve_value [PyVal.str "a"] SpecalArg.FILLTRUE 3 PyVal.none
      = Except.ok [PyVal.str "a", PyVal.bool true, PyVal.bool true] := by
  have h := (resolve_value_amended_spec [PyVal.str "a"] SpecalArg.FILLTRUE 3
      PyVal.none).2.2 (by simp) (Or.inr (by simp))
  simpa [substDefault, padValue, List.replicate] using h.1

/-- C9: appending to a nested argument never mutates the original.
With `(s2, a2) = add s a1 x` over a well-formed store (every live
reference is below `s.next`): the backing list of `a1` reads the same in
`s2` as in `s` (its `specal` field is part of the immutable record `a1`
and untouched by construction); `a2`'s backing reference is distinct from
`a1`'s; and any later overwrite of `a2`'s backing list still leaves
`a1`'s list as it was. -/
theorem nestedArg_add_cow {V : Type} (s : Store V) (a : NAObj)
    (x : V ⊕ SpecalArg) (h : a.valuesRef < s.next) :
    (NAObj.add s a x).1.lookup a.valuesRef = s.lookup a.valuesRef
  ∧ (NAObj.add s a x).2.valuesRef ≠ a.valuesRef
  ∧ ∀ ys : List V,
      ((NAObj.add s a x).1.update (NAObj.add s a x).2.valuesRef ys).lookup
          a.valuesRef
        = s.lookup a.valuesRef := by
  have hne : a.valuesRef ≠ s.next := by omega
  cases x with
  | inl v =>
      refine ⟨?_, ?_, ?_⟩
      · simp [NAObj.add, NAObj.copyObj, Store.alloc, Store.update,
          Store.lookup, hne]
      · simp [NAObj.add, NAObj.copyObj, Store.alloc]
        omega
      · intro ys
        simp [NAObj.add, NAObj.copyObj, Store.alloc, Store.update,
          Store.lookup, hne]
  | inr sp =>
      refine ⟨?_, ?_, ?_⟩
      · simp [NAObj.add, NAObj.copyObj, Store.alloc, Store.lookup, hne]
      · simp [NAObj.add, NAObj.copyObj, Store.alloc]
        omega
      · intro ys
        simp [NAObj.add, NAObj.copyObj, Store.alloc, Store.update,
          Store.lookup, hne]

/-- Witness for C9: a one-reference store holding `["a"]`, appending
`"b"`, then overwriting the copy with `["z"]`. -/
theorem nestedArg_add_cow_witness :
    (NAObj.add (Store.mk 1 (fun r => if r = 0 then ["a"] else []))
        (NAObj.mk 0 SpecalArg.FILLDEFAULT) (Sum.inl "b")).1.lookup 0
      = (Store.mk 1 (fun r => if r = 0 then ["a"] else [])).lookup 0
  ∧ (NAObj.add (Store.mk 1 (fun r => if r = 0 then ["a"] else []))
        (NAObj.mk 0 SpecalArg.FILLDEFAULT) (Sum.inl "b")).2.valuesRef ≠ 0
  ∧ ((NAObj.add (Store.mk 1 (fun r => if r = 0 then ["a"] else []))
        (NAObj.mk 0 SpecalArg.FILLDEFAULT) (Sum.inl "b")).1.update
        (NAObj.add (Store.mk 1 (fun r => if r = 0 then ["a"] else []))
          (NAObj.mk 0 SpecalArg.FILLDEFAULT) (Sum.inl "b")).2.valuesRef
        ["z"]).lookup 0
      = (Store.mk 1 (fun r => if r = 0 then ["a"] else [])).lookup 0 := by
  have h := nestedArg_add_cow (Store.mk 1 (fun r => if r = 0 then ["a"] else []))
    (NAObj.mk 0 SpecalArg.FILLDEFAULT) (Sum.inl "b") (by decide)
  exact ⟨h.1, h.2.1, h.2.2 ["z"]⟩

theorem runsAux_append {Node : Type}
    (find : Node → FindTag → Option (FindResult Node)) (xs ys : List Step)
    (v : Node) :
    runsAux find (xs ++ ys) v
      = match runsAux find xs v with
        | Except.error e => Except.error e
        | Except.ok n => runsAux find ys n := by
  induction xs generalizing v with
  | nil => rfl
  | cons r t ih =>
      simp only [List.cons_append, runsAux]
      cases Step.exec find r v with
      | error e => rfl
      | ok v2 => exact ih v2

theorem runsAux_singleton {Node : Type}
    (find : Node → FindTag → Option (FindResult Node)) (st : Step)
    (v : Node) : runsAux find [st] v = Step.exec find st v := by
  simp only [runsAux]
  cases Step.exec find st v with
  | error e => rfl
  | ok v2 => rfl

/-- C1: `Pipeline.run` folds each element's `_exec` over the ordered step
list starting from the given node, threading the intermediate node; an
element returning an `Error` makes `run` return that first error
unchanged with no later element executed (the `xs ++ ys` equation: after
an error in `xs`, the steps `ys` are never run); and
`run_and_raise_for_error` returns the same node on success and raises
(models as `Except.error`) exactly the error `run` produced on failure. -/
theorem pipeline_run_spec {Node : Type}
    (find : Node → FindTag → Option (FindResult Node)) :
    (∀ v : Node, Pipeline.run find (Pipeline.mk []) v = Except.ok v)
  ∧ (∀ (st : Step) (rest : List Step) (v : Node),
      runsAux find (st :: rest) v
        = match Step.exec find st v with
          | Except.error e => Except.error e
          | Except.ok v2 => runsAux find rest v2)
  ∧ (∀ (p : Pipeline) (v : Node),
      Pipeline.run find p v = runsAux find p._runs v)
  ∧ (∀ (xs ys : List Step) (v : Node),
      runsAux find (xs ++ ys) v
        = match runsAux find xs v with
          | Except.error e => Except.error e
          | Except.ok n => runsAux find ys n)
  ∧ (∀ (p : Pipeline) (v : Node),
      Pipeline.run_and_raise_for_error find p v = Pipeline.run find p v) := by
  refine ⟨fun v => rfl, fun st rest v => rfl, fun p v => rfl,
    runsAux_append find, fun p v => ?_⟩
  rw [Pipeline.run_and_raise_for_error]
  cases Pipeline.run find p v with
  | error e => rfl
  | ok n => rfl

/-- C6 (counterexample): `join` does not concatenate step lists — the
source appends the other pipeline as one nested element (pipeline.py
lines 226-228), so joining the empty pipeline with a one-step pipeline
yields a single nested element, not that step itself. -/
theorem join_concat_ce :
    ((Pipeline.mk []).join (Pipeline.mk [Step.findTag
        (FindTag.mk PyVal.none (PyVal.dict []) (PyVal.bool true)
          PyVal.none [])]))._runs
      ≠ (Pipeline.mk [])._runs
        ++ (Pipeline.mk [Step.findTag
            (FindTag.mk PyVal.none (PyVal.dict []) (PyVal.bool true)
              PyVal.none [])])._runs := by
  simp [Pipeline.join]

/-- C6 (amended): `a.join(b)` is a new pipeline whose step sequence is
`a`'s steps followed by one extra element, a copy of `b` itself as a
single nested step; `join` is associative semantically — running
`(a.join(b)).join(c)` and `a.join(b.join(c))` from any start node gives
the same result — although the two step sequences differ. -/
theorem join_amended_spec {Node : Type}
    (find : Node → FindTag → Option (FindResult Node)) (a b c : Pipeline) :
    ((a.join b)._runs = a._runs ++ [Step.nested b._runs])
  ∧ (∀ v : Node, Pipeline.run find ((a.join b).join c) v
        = Pipeline.run find (a.join (b.join c)) v) := by
  refine ⟨rfl, fun v => ?_⟩
  show runsAux find ((a._runs ++ [Step.nested b._runs])
        ++ [Step.nested c._runs]) v
      = runsAux find (a._runs
        ++ [Step.nested (b._runs ++ [Step.nested c._runs])]) v
  rw [List.append_assoc, runsAux_append, runsAux_append]
  cases runsAux find a._runs v with
  | error e => rfl
  | ok n =>
      show runsAux find ([Step.nested b._runs] ++ [Step.nested c._runs]) n
          = runsAux find [Step.nested (b._runs ++ [Step.nested c._runs])] n
      rw [runsAux_append, runsAux_singleton, runsAux_singleton]
      show (match runsAux find b._runs n with
            | Except.error e => Except.error e
            | Except.ok m => runsAux find [Step.nested c._runs] m)
          = runsAux find (b._runs ++ [Step.nested c._runs]) n
      rw [runsAux_append]

/-- C4: `AssertAny._exec` itself fails with `AssertError` exactly when
the predicate is false for every element and passes the sequence through
unchanged otherwise — but `AssertEnumerateAny._exec` does not: pipeline.py
line 510 tests `all(...)` where `AssertAny` tests `any(...)`, so on
`[0, 1]` with a predicate true exactly on the element `0`, `AssertAny`
passes the sequence through while `AssertEnumerateAny` returns
`AssertError`, contradicting the claim (and the class's own docstring). -/
theorem assertAny_spec :
    (∀ (Node : Type) (fn : Node → Bool) (xs : List Node),
        (AssertAny.exec fn xs = Except.error Err.assertError
          ↔ ∀ x ∈ xs, fn x = false)
      ∧ (AssertAny.exec fn xs = Except.ok xs ↔ ∃ x ∈ xs, fn x = true))
  ∧ AssertAny.exec (fun n => n == 0) [0, 1] = Except.ok [0, 1]
  ∧ AssertEnumerateAny.exec (fun _ n => n == 0) [0, 1]
      = Except.error Err.assertError := by
  refine ⟨fun Node fn xs => ?_, rfl, rfl⟩
  by_cases h : xs.any fn
  · have hex : ∃ x ∈ xs, fn x = true := by simpa [List.any_eq_true] using h
    constructor
    · simp [AssertAny.exec, h]
      exact hex
    · simp [AssertAny.exec, h, hex]
  · have hall : ∀ x ∈ xs, fn x = false := by
      simpa [List.any_eq_false] using h
    constructor
    · simp [AssertAny.exec, h]
      exact hall
    · simp [AssertAny.exec, h]
      intro x hx
      exact hall x hx

/-- C10: on the empty input sequence `AssertAll._exec` passes the empty
sequence through unchanged while `AssertAny._exec` returns `AssertError`,
for every predicate (`all` of an empty generator is True, `any` is
False). -/
theorem assert_empty_spec (Node : Type) (fn : Node → Bool) :
    AssertAll.exec fn ([] : List Node) = Except.ok []
  ∧ AssertAny.exec fn ([] : List Node) = Except.error Err.assertError :=
  ⟨rfl, rfl⟩

/-- C8: building `find_tag` or `find_all_tags` with `name` None and a
non-None `string` text-filter fails at build time with the
InvalidArgument fault (`AttributeError` in pipeline.py lines 266-267 and
428-429) before any step executes and before anything is appended; the
receiving pipeline is a pure value, hence unchanged. -/
theorem find_tag_validation (Node : Type) (p : Pipeline)
    (name attrs recursive string limit : PyVal)
    (kwargs : List (String × PyVal))
    (h1 : name.isNone = true) (h2 : string.isNone = false) :
    p.find_tag name attrs recursive string kwargs
        = Except.error BuildErr.attributeError
  ∧ Pipeline.find_all_tags Node p name attrs recursive string limit kwargs
      = Except.error BuildErr.attributeError := by
  constructor
  · simp [Pipeline.find_tag, h1, h2]
  · simp [Pipeline.find_all_tags, h1, h2]

/-- Witness for C8 at `name = None`, `string = "t"`. -/
theorem find_tag_validation_witness :
    (Pipeline.mk []).find_tag PyVal.none PyVal.none (PyVal.bool true)
        (PyVal.str "t") []
        = Except.error BuildErr.attributeError
  ∧ Pipeline.find_all_tags Unit (Pipeline.mk []) PyVal.none PyVal.none
        (PyVal.bool true) (PyVal.str "t") PyVal.none []
      = Except.error BuildErr.attributeError :=
  find_tag_validation Unit (Pipeline.mk []) PyVal.none PyVal.none
    (PyVal.bool true) (PyVal.str "t") PyVal.none [] rfl rfl

/-- C5: `ByIndex._exec` returns `xs[i]` with Python from-the-end
semantics for negative indices whenever `-len(xs) ≤ i < len(xs)`, and
returns `IndexOutOfRange(i)` exactly when `i ≥ len(xs)` or
`i < -len(xs)`; in particular index 0 on the empty sequence gives
`IndexOutOfRange(0)`. -/
theorem byIndex_spec {Node : Type} (b : ByIndex) (xs : List Node) :
    ((-(xs.length : Int)) ≤ b.index ∧ b.index < (xs.length : Int) →
      ∃ h : pyIndexNat b.index xs.length < xs.length,
        ByIndex.exec b xs
          = Except.ok (xs.get ⟨pyIndexNat b.index xs.length, h⟩))
  ∧ (ByIndex.exec b xs = Except.error (Err.indexOutError b.index)
      ↔ ((xs.length : Int) ≤ b.index ∨ b.index < -(xs.length : Int)))
  ∧ ByIndex.exec (ByIndex.mk 0) ([] : List Node)
      = Except.error (Err.indexOutError 0) := by
  refine ⟨fun hin => ?_, ?_, rfl⟩
  · have h1 : ¬ (0 ≤ b.index ∧ (xs.length : Int) ≤ b.index) := by omega
    have h2 : ¬ (b.index < 0 ∧ (xs.length : Int) < -b.index) := by omega
    have hb : pyIndexNat b.index xs.length < xs.length := by
      unfold pyIndexNat
      split <;> omega
    refine ⟨hb, ?_⟩
    rw [ByIndex.exec, dif_neg h1, dif_neg h2]
  · by_cases h1 : 0 ≤ b.index ∧ (xs.length : Int) ≤ b.index
    · rw [ByIndex.exec, dif_pos h1]
      simp only [true_iff]
      omega
    · by_cases h2 : b.index < 0 ∧ (xs.length : Int) < -b.index
      · rw [ByIndex.exec, dif_neg h1, dif_pos h2]
        simp only [true_iff]
        omega
      · rw [ByIndex.exec, dif_neg h1, dif_neg h2]
        constructor
        · intro h
          exact absurd h (by simp)
        · intro h
          omega

/-- Witness for C5: index `-1` on `[5, 7]` picks the last element. -/
theorem byIndex_spec_witness :
    ∃ h : pyIndexNat (ByIndex.mk (-1)).index ([5, 7] : List Nat).length
        < ([5, 7] : List Nat).length,
      ByIndex.exec (ByIndex.mk (-1)) ([5, 7] : List Nat)
        = Except.ok (([5, 7] : List Nat).get
            ⟨pyIndexNat (ByIndex.mk (-1)).index ([5, 7] : List Nat).length, h⟩) :=
  (byIndex_spec (ByIndex.mk (-1)) ([5, 7] : List Nat)).1 (by decide)

theorem resolve_value_exact (values : List PyVal) (sp : SpecalArg)
    (d : PyVal) (h : ∀ v ∈ values, v.isDefaultMark = false) :
    resolve_value values sp (values.length : Int) d = Except.ok values := by
  have he := resolve_value_of_le values sp (values.length : Int) d
    (Int.natCast_nonneg values.length) (le_refl _)
  rw [map_substDefault_eq_self d values h] at he
  simpa using he

theorem resolve_value_nil_filldefault (k : Nat) (d : PyVal) :
    resolve_value [] SpecalArg.FILLDEFAULT (k : Int) d
      = Except.ok (List.replicate k d) := by
  cases k with
  | zero => rfl
  | succ m =>
      have h := resolve_value_of_lt [] SpecalArg.FILLDEFAULT
        (((m + 1 : Nat)) : Int) d (by simp) (Or.inr (by decide))
      simpa [padValue] using h

theorem transposeLevels_nil (k : Nat) :
    transposeLevels [] k = List.replicate k [] := by
  simp only [transposeLevels, List.map_nil]
  exact List.eq_replicate_iff.2 ⟨by simp, by simp⟩

theorem buildFindSteps_map (vs : List PyVal) (a r : PyVal) :
    buildFindSteps vs (List.replicate vs.length a)
      (List.replicate vs.length r) (List.replicate vs.length PyVal.none)
      (List.replicate vs.length ([] : List (String × PyVal)))
      = Except.ok (vs.map (fun v =>
          Step.findTag (FindTag.make v a r PyVal.none []))) := by
  induction vs with
  | nil => rfl
  | cons v t ih =>
      simp only [List.length_cons, List.replicate_succ, buildFindSteps,
        List.map_cons]
      have hc : (v.isNone && !PyVal.none.isNone) = false := by
        simp [PyVal.isNone]
      simp only [hc, Bool.false_eq_true, if_false, ih]

theorem findNestedTail_name_only (p : Pipeline) (vs : List PyVal)
    (sp : SpecalArg) (hnd : ∀ v ∈ vs, v.isDefaultMark = false) (a : PyVal) :
    findNestedTail p vs.length (List.replicate vs.length a)
        (NestedArg.mk vs sp) (NestedArg.mk [] SpecalArg.FILLDEFAULT)
        (NestedArg.mk [] SpecalArg.FILLDEFAULT) []
      = Except.ok (Pipeline.mk (p._runs ++ vs.map (fun v =>
          Step.findTag (FindTag.make v a (PyVal.bool true) PyVal.none [])))) := by
  simp only [findNestedTail, resolveKwargsList,
    resolve_value_exact vs sp PyVal.none hnd,
    resolve_value_nil_filldefault, transposeLevels_nil, buildFindSteps_map]

/-- C3: `find_nested_tag` called with only a `name` nested argument
holding `k ≥ 1` values extends the pipeline with exactly `k` `FindTag`
steps, level `i` using the `i`-th name, with the recursive flag
defaulting to `True` and the text-filter to `None` at every level (the
other arguments default to empty FILLDEFAULT nested arguments, an empty
attrs dict and no kwargs, and name values never hold the `Default`
sentinel, per its declared element type `Strainable | None`); calling
`find_nested_tag` with no arguments at all yields depth 0 and a pipeline
with step sequence unchanged. -/
theorem find_nested_tag_name_only (p : Pipeline) (vs : List PyVal)
    (sp : SpecalArg) (_hk : vs ≠ [])
    (hnd : ∀ v ∈ vs, v.isDefaultMark = false) :
    Pipeline.find_nested_tag p (NestedArg.mk vs sp) (AttrsParam.dict [])
        (NestedArg.mk [] SpecalArg.FILLDEFAULT)
        (NestedArg.mk [] SpecalArg.FILLDEFAULT) []
      = Except.ok (Pipeline.mk (p._runs ++ vs.map (fun v =>
          Step.findTag (FindTag.mk v (PyVal.dict []) (PyVal.bool true)
            PyVal.none []))))
  ∧ Pipeline.find_nested_tag p (NestedArg.mk [] SpecalArg.FILLDEFAULT)
        (AttrsParam.dict []) (NestedArg.mk [] SpecalArg.FILLDEFAULT)
        (NestedArg.mk [] SpecalArg.FILLDEFAULT) []
      = Except.ok p := by
  constructor
  · simp only [Pipeline.find_nested_tag, maxLenNested, List.foldr_nil,
      List.length_nil, Nat.max_zero, Nat.max_self, resolveKwargsList,
      transposeLevels_nil, List.map_replicate]
    rw [findNestedTail_name_only p vs sp hnd (PyVal.dict [])]
    simp [FindTag.make, PyVal.isNone]
  · have h : Pipeline.find_nested_tag p
        (NestedArg.mk [] SpecalArg.FILLDEFAULT) (AttrsParam.dict [])
        (NestedArg.mk [] SpecalArg.FILLDEFAULT)
        (NestedArg.mk [] SpecalArg.FILLDEFAULT) []
        = Except.ok (Pipeline.mk (p._runs ++ [])) := rfl
    rw [h, List.append_nil]

/-- Witness for C3: two name levels `"div"` then `"span"`. -/
theorem find_nested_tag_name_only_witness :
    Pipeline.find_nested_tag (Pipeline.mk [])
        (NestedArg.mk [PyVal.str "div", PyVal.str "span"]
          SpecalArg.FILLDEFAULT)
        (AttrsParam.dict []) (NestedArg.mk [] SpecalArg.FILLDEFAULT)
        (NestedArg.mk [] SpecalArg.FILLDEFAULT) []
      = Except.ok (Pipeline.mk
          [Step.findTag (FindTag.mk (PyVal.str "div") (PyVal.dict [])
              (PyVal.bool true) PyVal.none []),
           Step.findTag (FindTag.mk (PyVal.str "span") (PyVal.dict [])
              (PyVal.bool true) PyVal.none [])]) := by
  have h := (find_nested_tag_name_only (Pipeline.mk [])
      [PyVal.str "div", PyVal.str "span"] SpecalArg.FILLDEFAULT
      (by simp) (by simp [PyVal.isDefaultMark])).1
  simpa using h

end Chainsoup
